import Mathlib

/-!
Shallow embedding of `curvesim/network/web3.py`: the Etherscan backoff query
client (`explorer`), contract-handle binding (`contract`), the underlying-asset
resolver (`_underlying_coin_address`) and the batch resolver
(`underlying_coin_addresses`).

External effects are modelled by an explicit environment `Env` supplying, per
address, the ABI document fetched from the explorer, the parsed function-name
set of an ABI document, and the value returned by a contract call.  Waits are
modelled by exact rationals.  The wait update `t_wait = round(t_wait * 1.5, 2)`
is computed by the program in IEEE-754 double arithmetic, which a shallow
embedding cannot express; the update is therefore abstracted as a parameter
`step` of the retry loop, and the exact-decimal instance `decimalStep` is used
only on concrete runs short enough that its outputs coincide with the decimal
values the program computes (the two agree for the first ten updates and first
differ at the eleventh, see `decimalStep`).  The in-place update of the caller
query mapping by `explorer` is modelled by returning the post-state of the
mapping.
-/

namespace CurveSimWeb3

/-- The rate-limit marker tested by `explorer` via
`result.startswith("Max rate limit reached")`. -/
def rateLimitMarker : String := "Max rate limit reached"

/-- Round-half-to-even of a rational to the nearest integer, the rounding mode
of the Python `round` builtin. -/
def bankersRound (q : ℚ) : ℤ :=
  let f : ℤ := ⌊q⌋
  let frac : ℚ := q - f
  if frac < 1/2 then f
  else if 1/2 < frac then f + 1
  else if Even f then f else f + 1

/-- Round-half-to-even to two decimal places on exact rationals.  This is the
decimal idealization of the Python `round(x, 2)`: the program rounds an IEEE
double, and the two agree exactly when the double and the exact product lie on
the same side of the relevant two-decimal tie — in particular they agree on
the first ten wait updates of the retry loop but not on the eleventh (see
`decimalStep`), which is why the universal theorems abstract the update. -/
def round2 (q : ℚ) : ℚ := (bankersRound (q * 100) : ℚ) / 100

/-- The Python `result.startswith("Max rate limit reached")`: the marker
characters are a prefix of the result characters. -/
def startsWithMarker (s : String) : Bool :=
  rateLimitMarker.data.isPrefixOf s.data

/-- One run of the `while True` retry loop of `explorer`, fuel-indexed.
`resp i` is the `result` field of the i-th HTTP response; `step` is the wait
update performed by `t_wait = round(t_wait * 1.5, 2)`, abstracted because the
program computes it in IEEE double arithmetic (see `decimalStep` for the
exact-decimal instance).  State: remaining fuel, current `t_wait`, total time
slept so far, attempt index.  Returns `some (result, totalSlept)` when a
non-rate-limited response is reached within the fuel bound, `none` otherwise;
the source loop has no fuel bound, so a return of `none` at every fuel models
non-termination. -/
def explorerLoop (step : ℚ → ℚ) (resp : ℕ → String) :
    ℕ → ℚ → ℚ → ℕ → Option (String × ℚ)
  | 0, _, _, _ => none
  | fuel + 1, tWait, slept, i =>
    let result := resp i
    if startsWithMarker result then
      explorerLoop step resp fuel (step tWait) (slept + tWait) (i + 1)
    else
      some (result, slept)

/-- The caller params mapping after `params.update({"apikey": KEY})`:
the `"apikey"` entry is set, every other entry is kept. -/
def updatedParams (params : String → Option String) (apikey : String) :
    String → Option String :=
  fun k => if k = "apikey" then some apikey else params k

/-- The `explorer` query client.  `params` is the caller query mapping,
`apikey` the `ETHERSCAN_API_KEY`, `step` the abstracted wait update, and
`resp` gives the `result` field of each HTTP response as a function of the
params actually sent.  It first updates the caller params in place (modelled
as returning the post-state of the mapping), then runs the backoff retry loop
starting from `t_wait = 0.2`.  Returns the loop outcome together with the
caller-visible params mapping after the call. -/
def explorer (step : ℚ → ℚ) (params : String → Option String) (apikey : String)
    (resp : (String → Option String) → ℕ → String) (fuel : ℕ) :
    Option (String × ℚ) × (String → Option String) :=
  let ps := updatedParams params apikey
  (explorerLoop step (resp ps) fuel (1/5) 0 0, ps)

/-- The exact-decimal instance of the wait update `round(t_wait * 1.5, 2)`.
Its decimal outputs coincide with the values the program computes on doubles
for the first ten updates (0.2 → 0.3 → 0.45 → 0.68 → 1.02 → 1.53 → 2.3 →
3.45 → 5.18 → 7.77) but differ from the eleventh on: the exact product
7.77 * 1.5 = 11.655 is a two-decimal tie that rounds to even as 11.66, while
the double product of the program sits just below 11.655 and rounds to 11.65.
It is therefore used only on concrete runs of at most ten updates, where it
is exact; the universal theorems quantify over the update function instead. -/
def decimalStep (t : ℚ) : ℚ := round2 (t * (3/2))

/-- The successive values of `t_wait` under an abstract wait update:
`t 0 = t0` and `t (i+1) = step (t i)`, the orbit of the in-loop recurrence
`t_wait = round(t_wait * 1.5, 2)`. -/
def tWaitFrom (step : ℚ → ℚ) (t0 : ℚ) : ℕ → ℚ
  | 0 => t0
  | i + 1 => step (tWaitFrom step t0 i)

/-- Total wait slept over `k` consecutive rate-limited responses: the sum of
the first `k` successive `t_wait` values. -/
def totalWaitFrom (step : ℚ → ℚ) (t0 : ℚ) (k : ℕ) : ℚ :=
  (Finset.range k).sum (tWaitFrom step t0)

/-- The total wait claimed by the spec formula: each term independently
`round(0.2 * 1.5 ^ i, 2)`. -/
def totalWaitSpec (k : ℕ) : ℚ :=
  (Finset.range k).sum (fun i => round2 ((1/5) * (3/2) ^ i))

/-- External environment of the resolver: per-address ABI fetch result,
ABI-document parsing into a capability set of function names, and contract
call results (handle address, bound ABI, function name → returned value). -/
structure Env where
  fetchABI : String → String
  fnNames : String → List String
  callFn : String → String → String → String

/-- Fixed reference address whose ABI is the canonical Aave proxy ABI. -/
def AAVE_PROXY_ADDRESS : String := "0x1C050bCa8BAbe53Ef769d0d2e411f556e1a27E7B"

/-- The binding `contract(address, abi=None)` with body
`abi = abi or await ABI(address)`: a missing or falsy (empty) supplied ABI
triggers an explorer fetch; a non-empty supplied ABI is bound as-is.  Returns
the handle as (address, bound ABI). -/
def contract (env : Env) (address : String) (abi : Option String := none) :
    String × String :=
  let a := match abi with
    | none => env.fetchABI address
    | some s => if s = "" then env.fetchABI address else s
  (address, a)

/-- Whether `contract` fetches the ABI from the explorer: exactly when the
supplied `abi` argument is absent or falsy (empty string). -/
def contractFetches (abi : Option String) : Bool :=
  match abi with
  | none => true
  | some s => s = ""

/-- The fixed candidate list `fns = ["upgradeToAndCall", "underlying", "token"]`
probed in order by `_underlying_coin_address`. -/
def fns : List String := ["upgradeToAndCall", "underlying", "token"]

/-- Resolver failure: `ValueError(f"Could not find underlying token for
{address}")` raised when no candidate matches. -/
inductive ResolveError where
  | resolutionError (address : String)
deriving DecidableEq, Repr

/-- Result of one run of `_underlying_coin_address`: the outcome, the list of
accessor invocations performed (handle address, handle ABI, function name),
and the first matched candidate of the probe loop. -/
structure ResolveResult where
  outcome : Except ResolveError String
  calls : List (String × String × String)
  matched : Option String

/-- The resolver `_underlying_coin_address(address)`: bind a handle (fetching
the ABI), probe `fns` in order for the first name in the capability set, raise
if none matches; on an `"upgradeToAndCall"` match, re-bind the same address
with the ABI fetched from the canonical proxy address and invoke
`"UNDERLYING_ASSET_ADDRESS"`; otherwise invoke the matched candidate. -/
def resolveUnderlying (env : Env) (address : String) : ResolveResult :=
  let c := contract env address
  let caps := env.fnNames c.2
  match fns.find? (fun f => caps.contains f) with
  | none =>
    ⟨Except.error (ResolveError.resolutionError address), [], none⟩
  | some fn =>
    if fn = "upgradeToAndCall" then
      let abi := env.fetchABI AAVE_PROXY_ADDRESS
      let c2 := contract env address (some abi)
      ⟨Except.ok (env.callFn c2.1 c2.2 "UNDERLYING_ASSET_ADDRESS"),
       [(c2.1, c2.2, "UNDERLYING_ASSET_ADDRESS")], some fn⟩
    else
      ⟨Except.ok (env.callFn c.1 c.2 fn), [(c.1, c.2, fn)], some fn⟩

/-- Output of the batch resolver: a bare string for scalar input, a list of
strings for collection input. -/
inductive Value where
  | str (s : String)
  | list (xs : List String)
deriving DecidableEq, Repr

/-- The `asyncio.gather` join over the per-address outcomes: all results in
input order, or the first failure with no partial results. -/
def gatherResults : List (Except ResolveError String) →
    Except ResolveError (List String)
  | [] => Except.ok []
  | Except.error e :: _ => Except.error e
  | Except.ok v :: rest => (gatherResults rest).map (fun vs => v :: vs)

/-- Input of `underlying_coin_addresses`: a single address string or an
iterable of address strings (the `isinstance(addresses, str)` test). -/
inductive AddrInput where
  | single (a : String)
  | many (as : List String)

/-- The batch resolver `underlying_coin_addresses(addresses)`: scalar input
delegates directly to `_underlying_coin_address`; collection input gathers one
task per address. -/
def underlyingCoinAddresses (env : Env) : AddrInput → Except ResolveError Value
  | AddrInput.single a => (resolveUnderlying env a).outcome.map Value.str
  | AddrInput.many as =>
    (gatherResults (as.map (fun a => (resolveUnderlying env a).outcome))).map
      Value.list

/-- The resolved value of one address, defined when its outcome succeeded. -/
def resolvedValue (env : Env) (a : String) : String :=
  match (resolveUnderlying env a).outcome with
  | Except.ok v => v
  | Except.error _ => ""

/-- Environment whose contracts expose both `underlying` and `token`. -/
def envUT : Env := ⟨fun _ => "abiUT",
  fun abi => if abi = "abiUT" then ["underlying", "token"] else [],
  fun _ _ f => if f = "underlying" then "0xCCC" else "0xZZZ"⟩

/-- Environment whose contracts expose only `token`. -/
def envT : Env := ⟨fun _ => "abiT",
  fun abi => if abi = "abiT" then ["token"] else [],
  fun _ _ _ => "0xEEE"⟩

/-- Environment with an upgradeable proxy whose canonical proxy ABI fetch
returns a non-empty document. -/
def envP : Env := ⟨fun a => if a = AAVE_PROXY_ADDRESS then "proxyABI" else "abiP",
  fun abi => if abi = "abiP" then ["upgradeToAndCall"]
             else if abi = "proxyABI" then ["UNDERLYING_ASSET_ADDRESS"] else [],
  fun _ _ _ => "0xDDD"⟩

/-- Environment with an upgradeable proxy whose canonical proxy ABI fetch
returns the empty (falsy) document. -/
def envB : Env := ⟨fun a => if a = AAVE_PROXY_ADDRESS then "" else "ownABI",
  fun abi => if abi = "ownABI" then ["upgradeToAndCall", "UNDERLYING_ASSET_ADDRESS"]
             else [],
  fun _ _ _ => "0xFFF"⟩

/-- Environment whose contracts expose none of the three candidates. -/
def envNone : Env := ⟨fun _ => "abiN", fun _ => [], fun _ _ _ => "0xQQQ"⟩

/-- Environment in which address 0xAAA resolves and every other address
exposes none of the three candidates. -/
def envMix : Env := ⟨fun a => if a = "0xAAA" then "abiUT" else "abiNone",
  fun abi => if abi = "abiUT" then ["underlying", "token"] else [],
  fun _ _ f => if f = "underlying" then "0xCCC" else "0xZZZ"⟩

/-- Response stream with five rate-limited responses followed by success. -/
def respW : (String → Option String) → ℕ → String :=
  fun _ i => if i < 5 then "Max rate limit reached, please wait" else "okresult"

/-- Response stream in which every response is rate-limited. -/
def respRL : (String → Option String) → ℕ → String :=
  fun _ _ => "Max rate limit reached, please wait"

/-- A concrete caller query mapping carrying a `module` entry. -/
def params0 : String → Option String :=
  fun k => if k = "module" then some "contract" else none

/-- The probe of `resolveUnderlying` unfolded into the priority if-tree over
the capability set of the fetched ABI. -/
lemma resolveUnderlying_eq (env : Env) (address : String) :
    resolveUnderlying env address =
      (let abi0 := env.fetchABI address
       let caps := env.fnNames abi0
       if "upgradeToAndCall" ∈ caps then
         let pabi := env.fetchABI AAVE_PROXY_ADDRESS
         let abi1 := if pabi = "" then abi0 else pabi
         ⟨Except.ok (env.callFn address abi1 "UNDERLYING_ASSET_ADDRESS"),
          [(address, abi1, "UNDERLYING_ASSET_ADDRESS")], some "upgradeToAndCall"⟩
       else if "underlying" ∈ caps then
         ⟨Except.ok (env.callFn address abi0 "underlying"),
          [(address, abi0, "underlying")], some "underlying"⟩
       else if "token" ∈ caps then
         ⟨Except.ok (env.callFn address abi0 "token"),
          [(address, abi0, "token")], some "token"⟩
       else ⟨Except.error (ResolveError.resolutionError address), [], none⟩) := by
  by_cases h1 : "upgradeToAndCall" ∈ env.fnNames (env.fetchABI address) <;>
    by_cases h2 : "underlying" ∈ env.fnNames (env.fetchABI address) <;>
      by_cases h3 : "token" ∈ env.fnNames (env.fetchABI address) <;>
        simp [resolveUnderlying, contract, fns, List.find?, h1, h2, h3]

/-- C1: probing the capability set tests the candidates in the fixed order
upgradeToAndCall, underlying, token and selects the first match: with
upgradeToAndCall absent, if underlying is present it is selected (and the
accessor invoked is underlying, never token, whether or not token is present);
if only token is present among the candidates, token is selected. -/
theorem candidate_priority (env : Env) (address : String)
    (hU : "upgradeToAndCall" ∉ env.fnNames (env.fetchABI address)) :
    ("underlying" ∈ env.fnNames (env.fetchABI address) →
      (resolveUnderlying env address).matched = some "underlying" ∧
      (resolveUnderlying env address).calls =
        [(address, env.fetchABI address, "underlying")]) ∧
    ("underlying" ∉ env.fnNames (env.fetchABI address) →
     "token" ∈ env.fnNames (env.fetchABI address) →
      (resolveUnderlying env address).matched = some "token" ∧
      (resolveUnderlying env address).calls =
        [(address, env.fetchABI address, "token")]) := by
  rw [resolveUnderlying_eq]
  constructor
  · intro h2
    simp [hU, h2]
  · intro h2 h3
    simp [hU, h2, h3]

/-- C1 witness: with capability set containing underlying and token the
resolver selects underlying; with only token it selects token. -/
theorem candidate_priority_witness :
    ("upgradeToAndCall" ∉ envUT.fnNames (envUT.fetchABI "0xAAA") ∧
     "underlying" ∈ envUT.fnNames (envUT.fetchABI "0xAAA") ∧
     "token" ∈ envUT.fnNames (envUT.fetchABI "0xAAA") ∧
     (resolveUnderlying envUT "0xAAA").matched = some "underlying") ∧
    ("upgradeToAndCall" ∉ envT.fnNames (envT.fetchABI "0xAAA") ∧
     "underlying" ∉ envT.fnNames (envT.fetchABI "0xAAA") ∧
     "token" ∈ envT.fnNames (envT.fetchABI "0xAAA") ∧
     (resolveUnderlying envT "0xAAA").matched = some "token") :=
  ⟨⟨by decide, by decide, by decide,
    ((candidate_priority envUT "0xAAA" (by decide)).1 (by decide)).1⟩,
   ⟨by decide, by decide, by decide,
    (((candidate_priority envT "0xAAA" (by decide)).2 (by decide)) (by decide)).1⟩⟩

/-- C2 (amended): when the first matched candidate is upgradeToAndCall and the
ABI document fetched from the canonical proxy address is non-empty, exactly one
accessor is invoked, namely UNDERLYING_ASSET_ADDRESS, on a handle re-bound for
the same input address to the fetched proxy ABI, regardless of the original
contract ABI contents. -/
theorem proxy_override (env : Env) (address : String)
    (hM : (resolveUnderlying env address).matched = some "upgradeToAndCall")
    (hP : env.fetchABI AAVE_PROXY_ADDRESS ≠ "") :
    (resolveUnderlying env address).calls =
      [(address, env.fetchABI AAVE_PROXY_ADDRESS, "UNDERLYING_ASSET_ADDRESS")] ∧
    (resolveUnderlying env address).calls.length = 1 := by
  rw [resolveUnderlying_eq] at hM ⊢
  by_cases h1 : "upgradeToAndCall" ∈ env.fnNames (env.fetchABI address)
  · simp [h1, hP]
  · by_cases h2 : "underlying" ∈ env.fnNames (env.fetchABI address)
    · simp [h1, h2] at hM
    · by_cases h3 : "token" ∈ env.fnNames (env.fetchABI address) <;>
        simp [h1, h2, h3] at hM

/-- C2 witness: with a non-empty fetched proxy ABI, the single invoked
accessor is UNDERLYING_ASSET_ADDRESS on the handle bound to the proxy ABI. -/
theorem proxy_override_witness :
    (resolveUnderlying envP "0xBBB").matched = some "upgradeToAndCall" ∧
    envP.fetchABI AAVE_PROXY_ADDRESS ≠ "" ∧
    (resolveUnderlying envP "0xBBB").calls =
      [("0xBBB", "proxyABI", "UNDERLYING_ASSET_ADDRESS")] := by
  refine ⟨by rfl, by decide, ?_⟩
  have h := proxy_override envP "0xBBB" (by rfl) (by decide)
  rw [h.1]
  rfl

/-- C2 counterexample: when the ABI fetched from the canonical proxy address
is the empty (falsy) document, `contract(address, abi)` re-fetches the original
contract own ABI, so the finally invoked handle is bound to the original ABI
and not to the document fetched from the proxy address — refuting the claim
that the re-bound handle always uses the proxy-address ABI independent of the
original contract ABI. -/
theorem proxy_override_counterexample :
    (resolveUnderlying envB "0xBBB").matched = some "upgradeToAndCall" ∧
    (resolveUnderlying envB "0xBBB").calls =
      [("0xBBB", "ownABI", "UNDERLYING_ASSET_ADDRESS")] ∧
    envB.fetchABI AAVE_PROXY_ADDRESS = "" ∧
    envB.fetchABI "0xBBB" = "ownABI" ∧
    ("ownABI" : String) ≠ "" :=
  ⟨by rfl, by rfl, by decide, by decide, by decide⟩

/-- C6: the resolver fails if and only if the capability set contains none of
the three candidates; any failure carries the failing address and happens with
no accessor invocation at all. -/
theorem resolution_error_iff (env : Env) (address : String) :
    ((resolveUnderlying env address).outcome =
       Except.error (ResolveError.resolutionError address) ↔
     ("upgradeToAndCall" ∉ env.fnNames (env.fetchABI address) ∧
      "underlying" ∉ env.fnNames (env.fetchABI address) ∧
      "token" ∉ env.fnNames (env.fetchABI address))) ∧
    (∀ e, (resolveUnderlying env address).outcome = Except.error e →
      (resolveUnderlying env address).calls = [] ∧
      e = ResolveError.resolutionError address) := by
  rw [resolveUnderlying_eq]
  by_cases h1 : "upgradeToAndCall" ∈ env.fnNames (env.fetchABI address) <;>
    by_cases h2 : "underlying" ∈ env.fnNames (env.fetchABI address) <;>
      by_cases h3 : "token" ∈ env.fnNames (env.fetchABI address) <;>
        simp [h1, h2, h3]

/-- C6 witness: with an empty capability set, the resolver fails with the
resolution error carrying the address and performs no accessor invocation. -/
theorem resolution_error_iff_witness :
    (resolveUnderlying envNone "0xEEE").outcome =
      Except.error (ResolveError.resolutionError "0xEEE") ∧
    (resolveUnderlying envNone "0xEEE").calls = [] :=
  ⟨(resolution_error_iff envNone "0xEEE").1.mpr
     ⟨by decide, by decide, by decide⟩,
   ((resolution_error_iff envNone "0xEEE").2
      (ResolveError.resolutionError "0xEEE")
      ((resolution_error_iff envNone "0xEEE").1.mpr
        ⟨by decide, by decide, by decide⟩)).1⟩

/-- The retry loop run on a stream with `k` leading rate-limited responses:
starting at the n-th wait of the orbit of `step` it sleeps the n-th through
(n+k-1)-th orbit values in total and returns the first non-rate-limited
result. -/
lemma explorerLoop_run (step : ℚ → ℚ) (t0 : ℚ) (resp : ℕ → String) :
    ∀ (k fuel n i : ℕ) (s : ℚ),
      (∀ d, d < k → startsWithMarker (resp (i + d)) = true) →
      startsWithMarker (resp (i + k)) = false →
      k < fuel →
      explorerLoop step resp fuel (tWaitFrom step t0 n) s i =
        some (resp (i + k),
          s + (Finset.range k).sum (fun d => tWaitFrom step t0 (n + d))) := by
  intro k
  induction k with
  | zero =>
    intro fuel n i s hk hs hf
    match fuel, hf with
    | fuel + 1, _ =>
      simp only [explorerLoop]
      rw [Nat.add_zero] at hs
      simp [hs]
  | succ k ih =>
    intro fuel n i s hk hs hf
    match fuel, hf with
    | fuel + 1, hf =>
      simp only [explorerLoop]
      have h0 : startsWithMarker (resp i) = true := by
        have := hk 0 (Nat.succ_pos k)
        rwa [Nat.add_zero] at this
      rw [h0]
      simp only [if_true]
      have hrec : step (tWaitFrom step t0 n) = tWaitFrom step t0 (n + 1) := rfl
      rw [hrec]
      have hk1 : ∀ d, d < k → startsWithMarker (resp (i + 1 + d)) = true := by
        intro d hd
        have h : i + 1 + d = i + (d + 1) := by omega
        rw [h]
        exact hk (d + 1) (by omega)
      have hs1 : startsWithMarker (resp (i + 1 + k)) = false := by
        have h : i + 1 + k = i + (k + 1) := by omega
        rw [h]
        exact hs
      have hrun := ih fuel (n + 1) (i + 1) (s + tWaitFrom step t0 n) hk1 hs1 (by omega)
      have hsum : s + (Finset.range (k + 1)).sum (fun d => tWaitFrom step t0 (n + d)) =
          s + tWaitFrom step t0 n +
            (Finset.range k).sum (fun d => tWaitFrom step t0 (n + 1 + d)) := by
        rw [Finset.sum_range_succ' (fun d => tWaitFrom step t0 (n + d)) k]
        simp only [Nat.add_zero]
        rw [Finset.sum_congr rfl
          (fun d _ => by rw [show n + (d + 1) = n + 1 + d from by omega])]
        ring
      rw [show i + (k + 1) = i + 1 + k from by omega, hsum]
      exact hrun

/-- C4 (amended): over `k` consecutive rate-limited responses followed by a
non-rate-limited one, the query client sleeps in total the sum of the first
`k` successive values of `t_wait` — the orbit of the in-program update
`t_wait = round(t_wait * 1.5, 2)` from the initial wait 0.2, each term derived
from the previous, already-rounded term, not by independently rounding
`0.2 * 1.5 ^ i` — and returns the result field of the first non-rate-limited
response.  The theorem holds for every wait-update function `step`, in
particular for the one the program computes on IEEE doubles. -/
theorem backoff_total_wait (step : ℚ → ℚ) (params : String → Option String)
    (apikey : String) (resp : (String → Option String) → ℕ → String)
    (k fuel : ℕ)
    (hk : ∀ i, i < k →
      startsWithMarker (resp (updatedParams params apikey) i) = true)
    (hs : startsWithMarker (resp (updatedParams params apikey) k) = false)
    (hf : k < fuel) :
    (explorer step params apikey resp fuel).1 =
      some (resp (updatedParams params apikey) k, totalWaitFrom step (1/5) k) := by
  have h := explorerLoop_run step (1/5) (resp (updatedParams params apikey))
    k fuel 0 0 0
    (fun d hd => by simpa using hk d hd) (by simpa using hs) hf
  simpa [explorer, totalWaitFrom, tWaitFrom] using h

/-- C4 witness: five rate-limited responses then success — the client returns
the post-rate-limit result with total wait the sum of the first five orbit
values; the run has fewer than ten updates, so `decimalStep` computes exactly
the decimal waits of the program. -/
theorem backoff_total_wait_witness :
    (explorer decimalStep (fun _ => none) "KEY" respW 6).1 =
      some ("okresult", totalWaitFrom decimalStep (1/5) 5) := by
  have h := backoff_total_wait decimalStep (fun _ => none) "KEY" respW 5 6
    (fun i hi => by interval_cases i <;> rfl) (by rfl) (by omega)
  exact h

/-- C4 counterexample: after five rate-limited responses the total slept wait
is 0.2 + 0.3 + 0.45 + 0.68 + 1.02 = 2.65, while the claimed per-term formula
round(0.2 * 1.5 ^ i, 2) sums to 0.2 + 0.3 + 0.45 + 0.68 + 1.01 = 2.64: the
code rounds cumulatively (round(1.02, 2) from the already-rounded 0.68), the
claim rounds each power independently (round(1.0125, 2) = 1.01).  On this run
of five updates `decimalStep` returns exactly the decimal waits the program
computes (the first disagreement with double rounding is at the eleventh
update), so the refutation holds for the program. -/
theorem backoff_total_wait_counterexample :
    (explorer decimalStep (fun _ => none) "KEY" respW 6).1 =
      some ("okresult", 53/20) ∧
    totalWaitSpec 5 = 66/25 ∧ ((53 : ℚ)/20) ≠ 66/25 := by
  refine ⟨?_, ?_, by norm_num⟩
  · have h := explorerLoop_run decimalStep (1/5)
      (respW (updatedParams (fun _ => none) "KEY")) 5 6 0 0 0
      (fun d hd => by interval_cases d <;> rfl) (by rfl) (by omega)
    simp only [explorer]
    rw [show (1/5 : ℚ) = tWaitFrom decimalStep (1/5) 0 from rfl, h]
    norm_num [tWaitFrom, decimalStep, round2, bankersRound, Int.even_iff,
      Finset.sum_range_succ, respW, updatedParams]
  · simp only [totalWaitSpec, Finset.sum_range_succ, Finset.sum_range_zero]
    norm_num [round2, bankersRound, Int.fract, Int.even_iff]

/-- C8: the backoff loop has no maximum retry count — on a stream in which
every response is rate-limited, no amount of fuel makes the query client
return, i.e. the retry loop has no terminating execution; this holds for
every wait-update function, in particular the program's. -/
theorem retry_forever (step : ℚ → ℚ) (params : String → Option String)
    (apikey : String) (resp : (String → Option String) → ℕ → String)
    (h : ∀ i, startsWithMarker (resp (updatedParams params apikey) i) = true) :
    ∀ fuel, (explorer step params apikey resp fuel).1 = none := by
  intro fuel
  suffices hgen : ∀ fuel t s i,
      explorerLoop step (resp (updatedParams params apikey)) fuel t s i = none by
    simpa [explorer] using hgen fuel (1/5) 0 0
  intro fuel
  induction fuel with
  | zero => intro t s i; rfl
  | succ fuel ih =>
    intro t s i
    simp only [explorerLoop, h i, if_true]
    exact ih _ _ _

/-- C8 witness: on the all-rate-limited stream the client returns nothing
within any fuel bound, here fuel 3. -/
theorem retry_forever_witness :
    (explorer decimalStep (fun _ => none) "KEY" respRL 3).1 = none :=
  retry_forever decimalStep (fun _ => none) "KEY" respRL (fun _ => rfl) 3

/-- The gather join on all-successful outcomes returns every resolved value in
input order. -/
lemma gatherResults_ok (env : Env) (as : List String)
    (h : ∀ a ∈ as, ∃ v, (resolveUnderlying env a).outcome = Except.ok v) :
    gatherResults (as.map (fun a => (resolveUnderlying env a).outcome)) =
      Except.ok (as.map (resolvedValue env)) := by
  induction as with
  | nil => rfl
  | cons a rest ih =>
    obtain ⟨v, hv⟩ := h a (List.mem_cons_self a rest)
    have hrest := ih (fun b hb => h b (List.mem_cons_of_mem a hb))
    simp only [List.map_cons]
    rw [hv]
    simp only [gatherResults, hrest]
    simp [Except.map, resolvedValue, hv]

/-- Mapping the list constructor over an Except preserves errors exactly. -/
lemma map_list_error {x : Except ResolveError (List String)} {e : ResolveError}
    (h : x.map Value.list = Except.error e) : x = Except.error e := by
  cases x with
  | ok l => simp [Except.map] at h
  | error e2 => simp [Except.map] at h; rw [h]

/-- Each single resolution either succeeds or fails with the resolution error
carrying its own address. -/
lemma outcome_cases (env : Env) (a : String) :
    (∃ v, (resolveUnderlying env a).outcome = Except.ok v) ∨
    (resolveUnderlying env a).outcome =
      Except.error (ResolveError.resolutionError a) := by
  rw [resolveUnderlying_eq]
  by_cases h1 : "upgradeToAndCall" ∈ env.fnNames (env.fetchABI a) <;>
    by_cases h2 : "underlying" ∈ env.fnNames (env.fetchABI a) <;>
      by_cases h3 : "token" ∈ env.fnNames (env.fetchABI a) <;>
        simp [h1, h2, h3]

/-- C3: when every individual resolution succeeds, the batch resolver returns
the list of individually resolved values in exact input order: position i of
the output is the result of resolving the address at position i alone. -/
theorem batch_order (env : Env) (as : List String)
    (h : ∀ a ∈ as, ∃ v, (resolveUnderlying env a).outcome = Except.ok v) :
    underlyingCoinAddresses env (AddrInput.many as) =
      Except.ok (Value.list (as.map (resolvedValue env))) ∧
    ∀ a ∈ as, (resolveUnderlying env a).outcome =
      Except.ok (resolvedValue env a) := by
  constructor
  · simp only [underlyingCoinAddresses]
    rw [gatherResults_ok env as h]
    rfl
  · intro a ha
    obtain ⟨v, hv⟩ := h a ha
    rw [hv]
    simp [resolvedValue, hv]

/-- C3 witness: a two-address batch returns both individually resolved values
in input order. -/
theorem batch_order_witness :
    underlyingCoinAddresses envUT (AddrInput.many ["0xAAA", "0xGGG"]) =
      Except.ok (Value.list ["0xCCC", "0xCCC"]) := by
  have h := batch_order envUT ["0xAAA", "0xGGG"]
    (fun a ha => by
      rcases List.mem_cons.mp ha with rfl | ha2
      · exact ⟨"0xCCC", rfl⟩
      · rcases List.mem_cons.mp ha2 with rfl | h3
        · exact ⟨"0xCCC", rfl⟩
        · cases h3)
  rw [h.1]
  rfl

/-- C5: when at least one per-address resolution fails, the batch resolver
yields no result list at all: it fails with the error of the first failing
sub-resolution in input order (every earlier address resolved successfully),
an error that carries the failing address; no partial results escape. -/
theorem batch_failure (env : Env) (as : List String)
    (h : ∃ a ∈ as, ∃ e, (resolveUnderlying env a).outcome = Except.error e) :
    ∃ pre b post, as = pre ++ b :: post ∧
      (∀ x ∈ pre, ∃ v, (resolveUnderlying env x).outcome = Except.ok v) ∧
      (resolveUnderlying env b).outcome =
        Except.error (ResolveError.resolutionError b) ∧
      underlyingCoinAddresses env (AddrInput.many as) =
        Except.error (ResolveError.resolutionError b) := by
  induction as with
  | nil =>
    obtain ⟨a, ha, _⟩ := h
    cases ha
  | cons a rest ih =>
    rcases outcome_cases env a with ⟨v, hv⟩ | he
    · have hrest : ∃ b ∈ rest, ∃ e,
          (resolveUnderlying env b).outcome = Except.error e := by
        obtain ⟨b, hb, e, hbe⟩ := h
        rcases List.mem_cons.mp hb with rfl | hbr
        · rw [hv] at hbe
          cases hbe
        · exact ⟨b, hbr, e, hbe⟩
      obtain ⟨pre, b, post, hsplit, hpre, hb, hbatch⟩ := ih hrest
      have hg : gatherResults (rest.map (fun x => (resolveUnderlying env x).outcome)) =
          Except.error (ResolveError.resolutionError b) :=
        map_list_error hbatch
      refine ⟨a :: pre, b, post, by rw [hsplit]; rfl, ?_, hb, ?_⟩
      · intro x hx
        rcases List.mem_cons.mp hx with rfl | hxp
        · exact ⟨v, hv⟩
        · exact hpre x hxp
      · simp only [underlyingCoinAddresses, List.map_cons]
        rw [hv]
        simp only [gatherResults, hg]
        rfl
    · refine ⟨[], a, rest, rfl, by simp, he, ?_⟩
      simp only [underlyingCoinAddresses, List.map_cons]
      rw [he]
      rfl

/-- C5 witness: a batch containing one resolvable and one unresolvable address
fails entirely with the error referencing the unresolvable address. -/
theorem batch_failure_witness :
    ∃ pre b post, (["0xAAA", "0xEEE"] : List String) = pre ++ b :: post ∧
      (∀ x ∈ pre, ∃ v, (resolveUnderlying envMix x).outcome = Except.ok v) ∧
      (resolveUnderlying envMix b).outcome =
        Except.error (ResolveError.resolutionError b) ∧
      underlyingCoinAddresses envMix (AddrInput.many ["0xAAA", "0xEEE"]) =
        Except.error (ResolveError.resolutionError b) :=
  batch_failure envMix ["0xAAA", "0xEEE"]
    ⟨"0xEEE", by simp, ResolveError.resolutionError "0xEEE", by rfl⟩

/-- C7: scalar input delegates directly to the single-address resolver and
returns the bare resolved value, not wrapped in a one-element collection. -/
theorem scalar_passthrough (env : Env) (a : String) :
    underlyingCoinAddresses env (AddrInput.single a) =
      ((resolveUnderlying env a).outcome).map Value.str ∧
    (∀ v, (resolveUnderlying env a).outcome = Except.ok v →
      underlyingCoinAddresses env (AddrInput.single a) =
        Except.ok (Value.str v) ∧ Value.str v ≠ Value.list [v]) := by
  refine ⟨rfl, ?_⟩
  intro v hv
  refine ⟨?_, by simp⟩
  simp [underlyingCoinAddresses, hv, Except.map]

/-- C7 witness: a scalar call yields the bare string resolved for the address,
which is not the one-element list value. -/
theorem scalar_passthrough_witness :
    underlyingCoinAddresses envUT (AddrInput.single "0xAAA") =
      Except.ok (Value.str "0xCCC") ∧
    Value.str "0xCCC" ≠ Value.list ["0xCCC"] :=
  (scalar_passthrough envUT "0xAAA").2 "0xCCC" (by rfl)

/-- C9: the query client inserts the apikey entry into the caller-visible
params mapping before any request is issued (the request stream receives the
updated mapping), and leaves every other entry of the mapping unchanged. -/
theorem explorer_params_update (step : ℚ → ℚ) (params : String → Option String)
    (apikey : String) (resp : (String → Option String) → ℕ → String) (fuel : ℕ) :
    ((explorer step params apikey resp fuel).2 "apikey" = some apikey) ∧
    (∀ k, k ≠ "apikey" → (explorer step params apikey resp fuel).2 k = params k) ∧
    ((explorer step params apikey resp fuel).1 =
      explorerLoop step (resp ((explorer step params apikey resp fuel).2))
        fuel (1/5) 0 0) := by
  refine ⟨?_, ?_, rfl⟩
  · simp [explorer, updatedParams]
  · intro k hk
    simp [explorer, updatedParams, hk]

/-- C9 witness: after a call on a mapping carrying a module entry, the caller
sees the apikey entry inserted and the module entry unchanged. -/
theorem explorer_params_update_witness :
    (explorer decimalStep params0 "KEY" respW 6).2 "apikey" = some "KEY" ∧
    (explorer decimalStep params0 "KEY" respW 6).2 "module" = some "contract" :=
  ⟨(explorer_params_update decimalStep params0 "KEY" respW 6).1,
   Eq.trans
     ((explorer_params_update decimalStep params0 "KEY" respW 6).2.1 "module"
       (by decide))
     (by rfl)⟩

/-- C10: contract binding fetches the ABI from the explorer exactly when the
supplied ABI argument is falsy — absent or the empty document — and binds any
non-empty supplied ABI as-is with no explorer query. -/
theorem contract_abi_fetch (env : Env) (address : String) :
    (contract env address none = (address, env.fetchABI address)) ∧
    (contract env address (some "") = (address, env.fetchABI address)) ∧
    (∀ s : String, s ≠ "" → contract env address (some s) = (address, s)) := by
  refine ⟨rfl, by simp [contract], ?_⟩
  intro s hs
  simp [contract, hs]

/-- C10 witness: a missing ABI and an empty ABI both bind the fetched ABI,
while a non-empty supplied ABI is bound as-is. -/
theorem contract_abi_fetch_witness :
    contract envUT "0xAAA" none = ("0xAAA", "abiUT") ∧
    contract envUT "0xAAA" (some "") = ("0xAAA", "abiUT") ∧
    contract envUT "0xAAA" (some "customABI") = ("0xAAA", "customABI") := by
  obtain ⟨h1, h2, h3⟩ := contract_abi_fetch envUT "0xAAA"
  exact ⟨h1, h2, h3 "customABI" (by decide)⟩

end CurveSimWeb3
